import Mathlib

/-!
Verification of the event-dispatch library core (`eventdispatch/core.py`):
a shallow embedding of the dispatch registry, notification resolution,
event-map correlation engine and its manager, together with theorems
settling the specified properties.

Payload values are modelled by the inductive `Value` (JSON-like data, the
shapes `json.dumps` accepts); callbacks are modelled by opaque numeric
identities (Python compares handlers by identity); dictionaries are
modelled by association lists in insertion order, matching Python dict
semantics (lookup by key, assignment keeps position of an existing key and
appends a new one, deletion preserves the order of the rest).
-/

/-- A JSON-like payload value: Python `None`, `bool`, `int`, `str`,
`list`, `dict` (association list in insertion order). -/
inductive Value where
  | null : Value
  | bool (b : Bool) : Value
  | int (n : Int) : Value
  | str (s : String) : Value
  | list (vs : List Value) : Value
  | dict (kvs : List (String × Value)) : Value
deriving Repr

mutual

/-- Structural equality test on values. -/
def beqV : Value → Value → Bool
  | .null, .null => true
  | .bool a, .bool b => a == b
  | .int a, .int b => a == b
  | .str a, .str b => a == b
  | .list xs, .list ys => beqL xs ys
  | .dict xs, .dict ys => beqP xs ys
  | _, _ => false

/-- Structural equality test on value lists. -/
def beqL : List Value → List Value → Bool
  | [], [] => true
  | x :: xs, y :: ys => beqV x y && beqL xs ys
  | _, _ => false

/-- Structural equality test on dict entry lists. -/
def beqP : List (String × Value) → List (String × Value) → Bool
  | [], [] => true
  | (k, v) :: xs, (l, w) :: ys => k == l && beqV v w && beqP xs ys
  | _, _ => false

end


/-- A payload: Python `Dict[str, Any]` as an association list. -/
abbrev Payload := List (String × Value)

/-- Lexicographic comparison of char lists by code point. -/
def charsLe : List Char → List Char → Bool
  | [], _ => true
  | _ :: _, [] => false
  | c :: cs, d :: ds =>
      if c.toNat < d.toNat then true
      else if d.toNat < c.toNat then false
      else charsLe cs ds

/-- Python `<=` on strings: lexicographic comparison by code point. -/
def strLe (a b : String) : Bool := charsLe a.data b.data

/-- Association-list lookup: Python `d[k]` / `d.get(k)` (first match; real
Python dicts have unique keys). -/
def lookupA {β : Type} (t : List (String × β)) (k : String) : Option β :=
  match t with
  | [] => none
  | (k', v) :: rest => if k' = k then some v else lookupA rest k

/-- Association-list assignment: Python `d[k] = v` (existing key keeps its
position, new key is appended). -/
def setA {β : Type} (t : List (String × β)) (k : String) (v : β) :
    List (String × β) :=
  match t with
  | [] => [(k, v)]
  | (k', v') :: rest =>
      if k' = k then (k', v) :: rest else (k', v') :: setA rest k v

/-- Association-list deletion: Python `del d[k]` / `d.pop(k)` (order of the
remaining entries preserved). -/
def removeA {β : Type} (t : List (String × β)) (k : String) :
    List (String × β) :=
  match t with
  | [] => []
  | (k', v') :: rest =>
      if k' = k then rest else (k', v') :: removeA rest k

mutual

/-- Canonical form of a value under Python `==`: Python treats `True == 1`
and `False == 0`, and compares dicts by key set regardless of insertion
order.  `canonValue` maps bools to ints and sorts dict entries by key. -/
def canonValue : Value → Value
  | .null => .null
  | .bool b => .int (if b then 1 else 0)
  | .int n => .int n
  | .str s => .str s
  | .list vs => .list (canonList vs)
  | .dict kvs =>
      .dict (List.insertionSort (fun a b => strLe a.1 b.1 = true) (canonPairs kvs))

/-- `canonValue` mapped over a list. -/
def canonList : List Value → List Value
  | [] => []
  | v :: vs => canonValue v :: canonList vs

/-- `canonValue` mapped over dict entries. -/
def canonPairs : List (String × Value) → List (String × Value)
  | [] => []
  | (k, v) :: kvs => (k, canonValue v) :: canonPairs kvs

end


/-- Python `==` on payload values: structural equality of canonical
forms. -/
def pyEq (a b : Value) : Bool := beqV (canonValue a) (canonValue b)

/-- Hexadecimal digit character (lowercase). -/
def hexDigit (n : Nat) : Char :=
  if n < 10 then Char.ofNat (48 + n) else Char.ofNat (87 + n)

/-- Four-hex-digit rendering of a code unit, for JSON `\uXXXX` escapes. -/
def hex4 (n : Nat) : String :=
  String.mk [hexDigit ((n >>> 12) % 16), hexDigit ((n >>> 8) % 16),
             hexDigit ((n >>> 4) % 16), hexDigit (n % 16)]

/-- JSON escaping of one character, as Python `json.dumps` does with its
default `ensure_ascii=True`: printable ASCII other than quote and
backslash is kept, the named C escapes are used for the usual control
characters, everything else becomes `\uXXXX` (surrogate pairs above the
basic plane). -/
def escapeChar (c : Char) : String :=
  let n := c.toNat
  if c = '"' then "\\\""
  else if c = '\\' then "\\\\"
  else if n = 10 then "\\n"
  else if n = 9 then "\\t"
  else if n = 13 then "\\r"
  else if n = 8 then "\\b"
  else if n = 12 then "\\f"
  else if 32 ≤ n ∧ n ≤ 126 then String.mk [c]
  else if n < 65536 then "\\u" ++ hex4 n
  else
    "\\u" ++ hex4 (55296 + (n - 65536) / 1024) ++
    "\\u" ++ hex4 (56320 + (n - 65536) % 1024)

/-- JSON string rendering (Python `json.dumps` of a `str`). -/
def dumpsStr (s : String) : String :=
  "\"" ++ String.join (s.data.map escapeChar) ++ "\""

/-- Comma-joined rendering of entries whose values are already rendered
(each entry shown as `"key": value` with the default `": "` and `", "`
separators). -/
def joinKV : List (String × String) → String
  | [] => ""
  | [(k, r)] => dumpsStr k ++ ": " ++ r
  | (k, r) :: rest => dumpsStr k ++ ": " ++ r ++ ", " ++ joinKV rest

mutual

/-- Python `json.dumps(value, sort_keys=True)` with the default separators
`", "` and `": "`: dict keys sorted lexicographically at every level.
(Entries are rendered first and the rendered entries sorted by key, which
agrees with sorting first since rendering keeps keys and the sort is
stable.) -/
def dumps : Value → String
  | .null => "null"
  | .bool b => if b then "true" else "false"
  | .int n => toString n
  | .str s => dumpsStr s
  | .list vs => "[" ++ dumpsList vs ++ "]"
  | .dict kvs =>
      "\x7b" ++
        joinKV (List.insertionSort (fun a b => strLe a.1 b.1 = true) (dumpsKVs kvs)) ++
      "\x7d"

/-- Comma-joined rendering of list elements. -/
def dumpsList : List Value → String
  | [] => ""
  | [v] => dumps v
  | v :: vs => dumps v ++ ", " ++ dumpsList vs

/-- Rendering of each dict value, keys kept. -/
def dumpsKVs : List (String × Value) → List (String × String)
  | [] => []
  | (k, v) :: kvs => (k, dumps v) :: dumpsKVs kvs

end


/-- UTF-8 encoding of one code point. -/
def utf8Char (n : Nat) : List Nat :=
  if n < 128 then [n]
  else if n < 2048 then [192 + n / 64, 128 + n % 64]
  else if n < 65536 then
    [224 + n / 4096, 128 + (n / 64) % 64, 128 + n % 64]
  else
    [240 + n / 262144, 128 + (n / 4096) % 64, 128 + (n / 64) % 64,
     128 + n % 64]

/-- UTF-8 bytes of a string (Python `value.encode('utf-8')`). -/
def utf8 (s : String) : List Nat :=
  (s.data.map (fun c => utf8Char c.toNat)).flatten

/-- 2 to the 32nd, the word modulus of SHA-256. -/
def M32 : Nat := 4294967296

/-- Right rotation of a 32-bit word. -/
def rotr (x k : Nat) : Nat := ((x >>> k) ||| (x <<< (32 - k))) % M32

/-- SHA-256 Ch function. -/
def shaCh (e f g : Nat) : Nat := (e &&& f) ^^^ ((e ^^^ 4294967295) &&& g)

/-- SHA-256 Maj function. -/
def shaMaj (a b c : Nat) : Nat := (a &&& b) ^^^ (a &&& c) ^^^ (b &&& c)

/-- SHA-256 big sigma 0. -/
def bigS0 (x : Nat) : Nat := rotr x 2 ^^^ rotr x 13 ^^^ rotr x 22

/-- SHA-256 big sigma 1. -/
def bigS1 (x : Nat) : Nat := rotr x 6 ^^^ rotr x 11 ^^^ rotr x 25

/-- SHA-256 small sigma 0. -/
def smallS0 (x : Nat) : Nat := rotr x 7 ^^^ rotr x 18 ^^^ (x >>> 3)

/-- SHA-256 small sigma 1. -/
def smallS1 (x : Nat) : Nat := rotr x 17 ^^^ rotr x 19 ^^^ (x >>> 10)

/-- The eight working registers of the SHA-256 compression function. -/
structure H8 where
  a : Nat
  b : Nat
  c : Nat
  d : Nat
  e : Nat
  f : Nat
  g : Nat
  h : Nat

/-- SHA-256 initial hash state. -/
def initH : H8 :=
  ⟨1779033703, 3144134277, 1013904242, 2773480762,
   1359893119, 2600822924, 528734635, 1541459225⟩

/-- SHA-256 round constants. -/
def Kconst : List Nat :=
  [1116352408, 1899447441, 3049323471, 3921009573, 961987163, 1508970993,
   2453635748, 2870763221, 3624381080, 310598401, 607225278, 1426881987,
   1925078388, 2162078206, 2614888103, 3248222580, 3835390401, 4022224774,
   264347078, 604807628, 770255983, 1249150122, 1555081692, 1996064986,
   2554220882, 2821834349, 2952996808, 3210313671, 3336571891, 3584528711,
   113926993, 338241895, 666307205, 773529912, 1294757372, 1396182291,
   1695183700, 1986661051, 2177026350, 2456956037, 2730485921, 2820302411,
   3259730800, 3345764771, 3516065817, 3600352804, 4094571909, 275423344,
   430227734, 506948616, 659060556, 883997877, 958139571, 1322822218,
   1537002063, 1747873779, 1955562222, 2024104815, 2227730452, 2361852424,
   2428436474, 2756734187, 3204031479, 3329325298]

/-- One SHA-256 compression round; `kw` is round constant plus message
word. -/
def shaRound (s : H8) (kw : Nat) : H8 :=
  let t1 := (s.h + bigS1 s.e + shaCh s.e s.f s.g + kw) % M32
  let t2 := (bigS0 s.a + shaMaj s.a s.b s.c) % M32
  ⟨(t1 + t2) % M32, s.a, s.b, s.c, (s.d + t1) % M32, s.e, s.f, s.g⟩

/-- Big-endian 32-bit words from a byte list. -/
def toWords : List Nat → List Nat
  | b0 :: b1 :: b2 :: b3 :: rest =>
      (b0 * 16777216 + b1 * 65536 + b2 * 256 + b3) :: toWords rest
  | _ => []

/-- Extend the 16 message words by `n` more schedule words. -/
def extendW (ws : List Nat) : Nat → List Nat
  | 0 => ws
  | n + 1 =>
      let i := ws.length
      let next := (smallS1 (ws.getD (i - 2) 0) + ws.getD (i - 7) 0 +
                   smallS0 (ws.getD (i - 15) 0) + ws.getD (i - 16) 0) % M32
      extendW (ws ++ [next]) n

/-- SHA-256 compression of one 64-byte block. -/
def compress (hs : H8) (block : List Nat) : H8 :=
  let ws := extendW (toWords block) 48
  let s := (Kconst.zip ws).foldl
    (fun s kw => shaRound s ((kw.1 + kw.2) % M32)) hs
  ⟨(hs.a + s.a) % M32, (hs.b + s.b) % M32, (hs.c + s.c) % M32,
   (hs.d + s.d) % M32, (hs.e + s.e) % M32, (hs.f + s.f) % M32,
   (hs.g + s.g) % M32, (hs.h + s.h) % M32⟩

/-- Big-endian 8-byte rendering of a length in bits. -/
def be8 (n : Nat) : List Nat :=
  [(n >>> 56) % 256, (n >>> 48) % 256, (n >>> 40) % 256, (n >>> 32) % 256,
   (n >>> 24) % 256, (n >>> 16) % 256, (n >>> 8) % 256, n % 256]

/-- SHA-256 padding: `0x80`, zeros to 56 mod 64, 8-byte bit length. -/
def padMsg (msg : List Nat) : List Nat :=
  msg ++ [128] ++ List.replicate ((119 - (msg.length % 64)) % 64) 0 ++
    be8 (msg.length * 8)

/-- Compression over all 64-byte blocks of a (padded) message; the fuel
argument bounds the number of blocks (callers pass the byte length, ample
since every step consumes 64 bytes). -/
def shaBlocks (hs : H8) (fuel : Nat) (msg : List Nat) : H8 :=
  match fuel, msg with
  | 0, _ => hs
  | _, [] => hs
  | n + 1, _ :: _ => shaBlocks (compress hs (msg.take 64)) n (msg.drop 64)

/-- Big-endian 4-byte rendering of a 32-bit word. -/
def be4 (n : Nat) : List Nat :=
  [(n >>> 24) % 256, (n >>> 16) % 256, (n >>> 8) % 256, n % 256]

/-- SHA-256 digest bytes of a byte list. -/
def sha256bytes (msg : List Nat) : List Nat :=
  let padded := padMsg msg
  let hs := shaBlocks initH padded.length padded
  be4 hs.a ++ be4 hs.b ++ be4 hs.c ++ be4 hs.d ++
  be4 hs.e ++ be4 hs.f ++ be4 hs.g ++ be4 hs.h

/-- Lowercase-hex rendering of one byte. -/
def byteHex (b : Nat) : String := String.mk [hexDigit (b / 16), hexDigit (b % 16)]

/-- Lowercase-hex rendering of a byte list. -/
def hexOfBytes (bs : List Nat) : String := String.join (bs.map byteHex)

/-- `EventMapUtil.encode_string`: lowercase hex SHA-256 digest of the
UTF-8 bytes of the given string. -/
def encode_string (value : String) : String :=
  hexOfBytes (sha256bytes (utf8 value))

/-- An event as the correlation engine sees it: name and payload.
(The source `Event` also carries a fresh `id` and `time`; `build_key` and
the matching logic read only `name` and `payload`, and the sanitized
mapping payloads strip `id`/`time`, so the embedding keeps just these two
fields.) -/
structure Event where
  name : String
  payload : Payload

/-- `EventMapManager.build_key`: sort the events by name (Python `sorted`
is stable, as `List.insertionSort` is), comma-join the sorted names,
comma-join `json.dumps(payload, sort_keys=True)` of the payloads in that
order, concatenate and hash. -/
def EventMapManager.build_key (events_to_map : List Event) : String :=
  let sorted_events :=
    List.insertionSort (fun a b => strLe a.name b.name = true) events_to_map
  let events := String.intercalate "," (sorted_events.map Event.name)
  let payload := String.intercalate ","
    (sorted_events.map (fun e => dumps (.dict e.payload)))
  encode_string (events ++ payload)

/-- The key as the specification describes it: the lowercase hex SHA-256
digest of the UTF-8 bytes of the concatenation of (a) the comma-joined
event names sorted lexicographically and (b) the comma-joined canonical
JSON serializations (map keys sorted) of the payloads taken in that same
sorted order. -/
def buildKeyDescribed (l : List Event) : String :=
  let sorted :=
    List.insertionSort (fun a b => strLe a.name b.name = true) l
  hexOfBytes (sha256bytes (utf8
    (String.intercalate "," (sorted.map Event.name) ++
     String.intercalate "," (sorted.map (fun e => dumps (.dict e.payload))))))

/-- Exceptions the embedded code can raise.  `typeErrorMissingArg` models
the Python `TypeError` produced when a bare `raise SomeErrorClass` names a
class whose constructor has a required argument (Python instantiates the
class with no arguments at the raise site). -/
inductive PyErr where
  | invalidEvent (events : List String)
  | typeErrorMissingArg
  | invalidMappingEvents (payload : Value)
  | duplicateMapping (payload : Value)
  | mappingNotFound (key : Option String)
  | attributeError
deriving Repr

/-- A registered callback, compared by identity as Python compares
callables. -/
abbrev Handler := Nat

/-- The registration table: event name to ordered callback list
(`EventDispatch.__event_handlers`). -/
abbrev RegTable := List (String × List Handler)

/-- The "all events" sentinel `EventDispatch.__ALL_EVENTS`. -/
def ALL_EVENTS : String := "*"

/-- Python `repr(handler)`: an opaque identifying string. -/
def reprHandler (h : Handler) : String :=
  "<callback " ++ toString h ++ ">"

/-- `EventDispatch.__register_for_event`: append the handler to the
event's list unless already present; create the entry on first handler;
report whether anything changed. -/
def EventDispatch.register_for_event (t : RegTable) (h : Handler)
    (event : String) : RegTable × Bool :=
  match lookupA t event with
  | some hs => if h ∈ hs then (t, false) else (setA t event (hs ++ [h]), true)
  | none => (setA t event [h], true)

/-- `EventDispatch.__unregister_from_event`: remove the handler from the
event's list if present (the list object stays in the table, possibly
empty); report whether anything changed. -/
def EventDispatch.unregister_from_event (t : RegTable) (h : Handler)
    (event : String) : RegTable × Bool :=
  match lookupA t event with
  | some hs => if h ∈ hs then (setA t event (hs.erase h), true) else (t, false)
  | none => (t, false)

/-- `EventDispatch.__validate_events`: collect the names that are falsy or
equal to the sentinel; if any, the source executes `raise
InvalidEventError` — naming the class, whose constructor requires an
`events` argument — so what actually reaches the caller is a `TypeError`
from the failed instantiation, not an `InvalidEventError`. -/
def EventDispatch.validate_events (events : List String) :
    Except PyErr Unit :=
  let invalid_events := events.filter (fun e => e == "" || e == ALL_EVENTS)
  if invalid_events.length > 0 then .error .typeErrorMissingArg
  else .ok ()

/-- Result of a `post_event` call: the registration table afterwards and
the callbacks that received a delivery unit, in dispatch order. -/
structure PostResult where
  table : RegTable
  delivered : List Handler
deriving Repr

/-- `EventDispatch.post_event`: constructing the `Event` fails on a falsy
name; otherwise the specific handler list is fetched (by reference: when
the name has an entry, later appends mutate the stored list), the
wildcard handlers not already present and not equal to `exclude_handler`
are appended, and every handler in the combined list gets a delivery
unit.  The payload only rides along inside the delivered event; it does
not influence the table or the delivery set. -/
def EventDispatch.post_event (t : RegTable) (name : String) (_ : Payload)
    (exclude_handler : Option Handler) : Except PyErr PostResult :=
  if name == "" then .error (.invalidEvent [name])
  else
    let all_event_handlers := (lookupA t ALL_EVENTS).getD []
    let addAll := fun (init : List Handler) =>
      all_event_handlers.foldl
        (fun acc h =>
          if !(acc.contains h) && !(exclude_handler == some h) then
            acc ++ [h]
          else acc) init
    match lookupA t name with
    | some hs =>
        let combined := addAll hs
        .ok ⟨setA t name combined, combined⟩
    | none =>
        let combined := addAll []
        .ok ⟨t, combined⟩

/-- Result of a register/unregister call: the table afterwards and the
administrative events posted (name and payload). -/
structure RegResult where
  table : RegTable
  posts : List (String × Value)
deriving Repr

/-- Name of the administrative registration event. -/
def handler_registered_name : String := "event_dispatch.handler_registered"

/-- Name of the administrative unregistration event. -/
def handler_unregistered_name : String := "event_dispatch.handler_unregistered"

/-- The fold over the supplied names performed by `register` (table plus
"did any registration change anything" flag). -/
def regFold (t : RegTable) (h : Handler) (events : List String) :
    RegTable × Bool :=
  events.foldl
    (fun acc ev =>
      let r := EventDispatch.register_for_event acc.1 h ev
      (r.1, acc.2 || r.2)) (t, false)

/-- The fold over the supplied names performed by `unregister`. -/
def unregFold (t : RegTable) (h : Handler) (events : List String) :
    RegTable × Bool :=
  events.foldl
    (fun acc ev =>
      let r := EventDispatch.unregister_from_event acc.1 h ev
      (r.1, acc.2 || r.2)) (t, false)

/-- `EventDispatch.__post_admin_event_registration`: post the
administrative event with the supplied names (the sentinel-only list
rendered as an empty list) and an identifier for the handler. -/
def adminPayload (h : Handler) (events : List String) : Payload :=
  let events' := if events = [ALL_EVENTS] then [] else events
  [("events", .list (events'.map .str)),
   ("handler", .str (reprHandler h))]

/-- `EventDispatch.register`: validate, substitute the sentinel for an
empty list, register each name, and post `handler_registered` when
anything changed (the admin post goes through `post_event` on the same
table). -/
def EventDispatch.register (t : RegTable) (h : Handler)
    (events : List String) : Except PyErr RegResult :=
  match EventDispatch.validate_events events with
  | .error e => .error e
  | .ok _ =>
      let events' := if events = [] then [ALL_EVENTS] else events
      let folded := regFold t h events'
      if folded.2 then
        let payload := adminPayload h events'
        match EventDispatch.post_event folded.1 handler_registered_name
            payload none with
        | .ok pr => .ok ⟨pr.table, [(handler_registered_name, .dict payload)]⟩
        | .error e => .error e
      else .ok ⟨folded.1, []⟩

/-- `EventDispatch.unregister`: symmetric to `register`. -/
def EventDispatch.unregister (t : RegTable) (h : Handler)
    (events : List String) : Except PyErr RegResult :=
  match EventDispatch.validate_events events with
  | .error e => .error e
  | .ok _ =>
      let events' := if events = [] then [ALL_EVENTS] else events
      let folded := unregFold t h events'
      if folded.2 then
        let payload := adminPayload h events'
        match EventDispatch.post_event folded.1 handler_unregistered_name
            payload none with
        | .ok pr => .ok ⟨pr.table, [(handler_unregistered_name, .dict payload)]⟩
        | .error e => .error e
      else .ok ⟨folded.1, []⟩

/-- Name of the `mapping_created` administrative event. -/
def mapping_created_name : String := "event_map.mapping_created"

/-- Name of the `mapping_triggered` administrative event. -/
def mapping_triggered_name : String := "event_map.mapping_triggered"

/-- Name of the `mapping_removed` administrative event. -/
def mapping_removed_name : String := "event_map.mapping_removed"

/-- Python `payload.get(key)`: the stored value, or `None` when the key is
absent (`dict.get` never raises). -/
def pyGet (p : Payload) (k : String) : Value := (lookupA p k).getD .null

/-- The payload check of `EventMap.on_event`: for every expected key, the
incoming payload's value fetched with `dict.get` — `None` when the key is
absent — must equal (Python `==`) the expected value.  (The source wraps
the loop in `try/except KeyError`, but `dict.get` does not raise, so the
handler is dead code.) -/
def payloadMatches (expected incoming : Payload) : Bool :=
  expected.all (fun kv => pyEq (pyGet incoming kv.1) kv.2)

/-- The mutable state of one `EventMap`: the construction-time watched
events and composite event, the still-unmatched watch dict, the names the
map registered for, and its correlation key. -/
structure EventMapState where
  events_to_map : List Event
  event_to_post : Event
  events_to_watch : List (String × Payload)
  mapped_events : List String
  key : String

/-- An interaction of an `EventMap` with its dispatcher: posting an event
or unregistering its handler from a list of names. -/
inductive MapAction where
  | post (name : String) (payload : Payload)
  | unregister (events : List String)

/-- `EventMap.stop`: unregister the map's handler from its mapped events,
then post `mapping_triggered` carrying the map's key. -/
def EventMap.stop (s : EventMapState) : List MapAction :=
  [.unregister s.mapped_events,
   .post mapping_triggered_name [("key", .str s.key)]]

/-- `EventMap.on_event`: ignore events whose name is not in the watch
dict; compare the recorded expected payload against the incoming payload
(`payloadMatches`); on a full match delete the name from the watch dict,
and if the dict became empty post the construction-time event-to-post and
run `stop`. -/
def EventMap.on_event (s : EventMapState) (ev : Event) :
    EventMapState × List MapAction :=
  match lookupA s.events_to_watch ev.name with
  | none => (s, [])
  | some payload_to_watch =>
      if payloadMatches payload_to_watch ev.payload then
        let watch' := removeA s.events_to_watch ev.name
        let s' := { s with events_to_watch := watch' }
        if watch'.isEmpty then
          (s', .post s.event_to_post.name s.event_to_post.payload ::
               EventMap.stop s)
        else (s', [])
      else (s, [])

/-- `Option.map`-style extraction: all events of a Python list that may
contain `None` entries, or `none` at the first `None` (where iteration in
the source would hit an `AttributeError`). -/
def allSome : List (Option Event) → Option (List Event)
  | [] => some []
  | none :: _ => none
  | some e :: rest => (allSome rest).map (e :: ·)

/-- `EventMapUtil.remove_unique_items_from_event` applied to an event's
dict: the `name`/`payload` view with the unique `id`/`time` fields
stripped (the embedding carries only `name` and `payload` to begin
with). -/
def eventValue (e : Event) : Value :=
  .dict [("name", .str e.name), ("payload", .dict e.payload)]

/-- `EventMapUtil.build_event_mapping_payload`: the mapping payload with
the sanitized watched events and composite event (`None` entries and a
`None` composite event rendered as JSON null).  In the source the
unsanitized branch — taken for an empty list or a list with `None`
entries — keeps the raw objects, which differ from the sanitized dicts
only by the `id`/`time` fields that lie outside the embedding, so both
branches coincide here. -/
def build_event_mapping_payload (events_to_map : List (Option Event))
    (event_to_post : Option Event) : Value :=
  .dict [("events_to_map",
          .list (events_to_map.map (fun o => (o.map eventValue).getD .null))),
         ("event_to_post",
          ((event_to_post.map eventValue).getD .null))]

/-- `EventMap.__init__`: reject an empty watch list, a missing composite
event, or an all-falsy watch list with `InvalidMappingEvents`; otherwise
build the watch dict (`AttributeError` if a `None` entry survives the
`any` check, i.e. on a mixed list), record the mapped names and key.  (On
success the source also registers `on_event` for the mapped names with
the dispatcher.) -/
def EventMap.init (events_to_map : List (Option Event))
    (event_to_post : Option Event) (key : String) :
    Except PyErr EventMapState :=
  if events_to_map.isEmpty || event_to_post.isNone ||
      events_to_map.all (fun e => e.isNone) then
    .error (.invalidMappingEvents
      (build_event_mapping_payload events_to_map event_to_post))
  else
    match allSome events_to_map, event_to_post with
    | some evs, some post =>
        .ok { events_to_map := evs
              event_to_post := post
              events_to_watch :=
                evs.foldl (fun d e => setA d e.name e.payload) []
              mapped_events := evs.map Event.name
              key := key }
    | _, _ => .error .attributeError

/-- The manager's table: correlation key to live event map. -/
abbrev MapTable := List (String × EventMapState)

/-- Outcome of a `map_events` call: the returned key or the raised error,
the table afterwards, and the administrative events posted through the
dispatcher. -/
structure MapEventsResult where
  result : Except PyErr String
  table : MapTable
  posts : List (String × Value)

/-- `EventMapManager.map_events`: validate (empty list or missing
composite event raise `InvalidMappingEvents`), compute the key
(`build_key` hits an `AttributeError` on a `None` entry before any
duplicate check), return the existing key or raise `DuplicateMapping` on a
collision, otherwise construct and store the map under the key and post
`mapping_created`. -/
def EventMapManager.map_events (tbl : MapTable)
    (events_to_map : List (Option Event)) (event_to_post : Option Event)
    (ignore_if_exists : Bool) : MapEventsResult :=
  if events_to_map.isEmpty || event_to_post.isNone then
    ⟨.error (.invalidMappingEvents
       (build_event_mapping_payload events_to_map event_to_post)), tbl, []⟩
  else
    match allSome events_to_map with
    | none => ⟨.error .attributeError, tbl, []⟩
    | some evs =>
        let key := EventMapManager.build_key evs
        if (lookupA tbl key).isSome then
          if ignore_if_exists then ⟨.ok key, tbl, []⟩
          else
            ⟨.error (.duplicateMapping
               (build_event_mapping_payload events_to_map event_to_post)),
             tbl, []⟩
        else
          match EventMap.init events_to_map event_to_post key with
          | .ok m =>
              ⟨.ok key, setA tbl key m,
               [(mapping_created_name,
                 build_event_mapping_payload events_to_map event_to_post)]⟩
          | .error e => ⟨.error e, tbl, []⟩

/-- Outcome of a `remove_event_map_by_key` call. -/
structure RemoveResult where
  result : Except PyErr Unit
  table : MapTable
  posts : List (String × Value)

/-- `EventMapManager.remove_event_map_by_key`: pop the key (a `None` key
never matches the string keys of the table, so `dict.pop` raises
`KeyError`, surfaced as `MappingNotFound`); on success post
`mapping_removed` with the sanitized mapping payload of the removed
map. -/
def EventMapManager.remove_event_map_by_key (tbl : MapTable)
    (key : Option String) : RemoveResult :=
  match key with
  | none => ⟨.error (.mappingNotFound none), tbl, []⟩
  | some k =>
      match lookupA tbl k with
      | none => ⟨.error (.mappingNotFound (some k)), tbl, []⟩
      | some event_map =>
          ⟨.ok (), removeA tbl k,
           [(mapping_removed_name,
             build_event_mapping_payload (event_map.events_to_map.map some)
               (some event_map.event_to_post))]⟩

/-- Discriminator for the `InvalidMappingEvents` error kind. -/
def isInvalidMappingEvents : PyErr → Bool
  | .invalidMappingEvents _ => true
  | _ => false

/-- The embedded `encode_string` agrees with the SHA-256 test vector for
the empty string. -/
theorem encode_string_empty :
    encode_string "" =
      "e3b0c44298fc1c149afbf4c8996fb92427ae41e4649b934ca495991b7852b855" := by
  decide

/-- The embedded `build_key` reproduces the repository's own expected key
for one watched event with empty payload (`test_build_key`). -/
theorem build_key_vector_1 :
    EventMapManager.build_key [⟨"event_1", []⟩] =
      "ca29afc0c6f152074f1bb35fb0f1c5a987f0938a4767639740f6169e96cea4ed" := by
  decide

/-- The embedded `build_key` reproduces the repository's expected key for
one watched event with payload (`test_build_key`). -/
theorem build_key_vector_2 :
    EventMapManager.build_key [⟨"event_1", [("id", .int 5)]⟩] =
      "2179092d98d47a016a99009c9cfa6f939cf33e93642c528480053df39a37767e" := by
  decide

/-- The embedded `build_key` reproduces the repository's expected key for
two watched events with payloads supplied in reversed order
(`test_build_key`). -/
theorem build_key_vector_3 :
    EventMapManager.build_key
      [⟨"event_2", [("name", .str "mary"), ("age", .int 10)]⟩,
       ⟨"event_1", [("id", .int 5)]⟩] =
      "3bea6bb39ac22ea37b905767bd93f3ca83f3fee2242480bd264039212be7f29c" := by
  decide

/-- `charsLe` is total. -/
theorem charsLe_total : ∀ a b : List Char, charsLe a b = true ∨ charsLe b a = true
  | [], _ => Or.inl rfl
  | _ :: _, [] => Or.inr rfl
  | c :: cs, d :: ds => by
      simp only [charsLe]
      rcases Nat.lt_trichotomy c.toNat d.toNat with h | h | h
      · left; simp [h]
      · have h1 : ¬ c.toNat < d.toNat := by omega
        have h2 : ¬ d.toNat < c.toNat := by omega
        rcases charsLe_total cs ds with ih | ih
        · left; simp [h1, h2, ih]
        · right; simp [h1, h2, ih]
      · right; simp [h, Nat.lt_asymm h]

/-- Characterization of `charsLe` on non-empty lists. -/
theorem charsLe_cons {a b : Char} {as bs : List Char} :
    charsLe (a :: as) (b :: bs) = true ↔
      a.toNat < b.toNat ∨ (a.toNat = b.toNat ∧ charsLe as bs = true) := by
  simp only [charsLe]
  rcases Nat.lt_trichotomy a.toNat b.toNat with h | h | h
  · simp [h]
  · simp [h, Nat.lt_irrefl]
  · have h1 : ¬ a.toNat < b.toNat := Nat.lt_asymm h
    simp [h, h1]
    omega

/-- `charsLe` is transitive. -/
theorem charsLe_trans : ∀ a b c : List Char,
    charsLe a b = true → charsLe b c = true → charsLe a c = true
  | [], _, _, _, _ => rfl
  | _ :: _, [], _, h, _ => by simp [charsLe] at h
  | _ :: _, _ :: _, [], _, h => by simp [charsLe] at h
  | a :: as, b :: bs, c :: cs, h1, h2 => by
      rcases charsLe_cons.mp h1 with hab | ⟨hab, h1'⟩ <;>
        rcases charsLe_cons.mp h2 with hbc | ⟨hbc, h2'⟩
      · exact charsLe_cons.mpr (Or.inl (Nat.lt_trans hab hbc))
      · exact charsLe_cons.mpr (Or.inl (hbc ▸ hab))
      · exact charsLe_cons.mpr (Or.inl (hab ▸ hbc))
      · exact charsLe_cons.mpr
          (Or.inr ⟨hab.trans hbc, charsLe_trans as bs cs h1' h2'⟩)

/-- `charsLe` is antisymmetric. -/
theorem charsLe_antisymm : ∀ a b : List Char,
    charsLe a b = true → charsLe b a = true → a = b
  | [], [], _, _ => rfl
  | [], _ :: _, _, h => by simp [charsLe] at h
  | _ :: _, [], h, _ => by simp [charsLe] at h
  | a :: as, b :: bs, h1, h2 => by
      simp only [charsLe] at h1 h2
      rcases Nat.lt_trichotomy a.toNat b.toNat with hab | hab | hab
      · exfalso; revert h2; simp [hab, Nat.lt_asymm hab]
      · have ha : a = b := Char.eq_of_val_eq (UInt32.ext hab)
        subst ha
        have h1' : charsLe as bs = true := by simpa [Nat.lt_irrefl] using h1
        have h2' : charsLe bs as = true := by simpa [Nat.lt_irrefl] using h2
        rw [charsLe_antisymm as bs h1' h2']
      · exfalso; revert h1; simp [hab, Nat.lt_asymm hab]

/-- `strLe` is total. -/
theorem strLe_total (a b : String) : strLe a b = true ∨ strLe b a = true :=
  charsLe_total a.data b.data

/-- `strLe` is transitive. -/
theorem strLe_trans {a b c : String} (h1 : strLe a b = true)
    (h2 : strLe b c = true) : strLe a c = true :=
  charsLe_trans a.data b.data c.data h1 h2

/-- `strLe` is antisymmetric. -/
theorem strLe_antisymm {a b : String} (h1 : strLe a b = true)
    (h2 : strLe b a = true) : a = b := by
  have := charsLe_antisymm a.data b.data h1 h2
  cases a; cases b; simp_all

/-- Two lists sorted by a string key are equal when they are permutations
of each other and the keys are pairwise distinct. -/
theorem sorted_perm_eq_of_nodup_key {α : Type} (f : α → String) :
    ∀ {l₁ l₂ : List α}, l₁.Perm l₂ →
      l₁.Sorted (fun a b => strLe (f a) (f b) = true) →
      l₂.Sorted (fun a b => strLe (f a) (f b) = true) →
      (l₁.map f).Nodup → l₁ = l₂
  | [], l₂, hp, _, _, _ => hp.nil_eq
  | a :: t₁, [], hp, _, _, _ => by
      exact absurd hp.symm.nil_eq (by simp)
  | a :: t₁, b :: t₂, hp, hs₁, hs₂, hn => by
      have hab : a = b := by
        by_contra hne
        have hbmem : b ∈ a :: t₁ := hp.mem_iff.mpr (by simp)
        have hamem : a ∈ b :: t₂ := hp.mem_iff.mp (by simp)
        have hb₁ : b ∈ t₁ := by
          rcases hbmem with _ | h
          · exact absurd rfl hne
          · assumption
        have ha₂ : a ∈ t₂ := by
          rcases hamem with _ | h
          · exact absurd rfl hne
          · assumption
        have r1 : strLe (f a) (f b) = true :=
          (List.sorted_cons.mp hs₁).1 b hb₁
        have r2 : strLe (f b) (f a) = true :=
          (List.sorted_cons.mp hs₂).1 a ha₂
        have : f a = f b := strLe_antisymm r1 r2
        have : f a ∈ t₁.map f := this ▸ List.mem_map_of_mem f hb₁
        exact (List.nodup_cons.mp hn).1 this
      subst hab
      have ht : t₁ = t₂ :=
        sorted_perm_eq_of_nodup_key f hp.cons_inv
          (List.sorted_cons.mp hs₁).2 (List.sorted_cons.mp hs₂).2
          (List.nodup_cons.mp hn).2
      rw [ht]

/-- C1 (amended): `build_key` returns the lowercase hex SHA-256 digest of
the UTF-8 bytes of the concatenation of the comma-joined sorted event
names and the comma-joined canonical JSON payload serializations in that
sorted order; it is invariant under permutation of the input list whenever
the event names are pairwise distinct (with duplicate names the stable
sort makes the key sensitive to input order); and changing a payload value
changes the key, as on the specification's example payloads. -/
theorem build_key_characterization :
    (∀ l : List Event, EventMapManager.build_key l = buildKeyDescribed l) ∧
    (∀ l l' : List Event, l.Perm l' → (l.map Event.name).Nodup →
      EventMapManager.build_key l = EventMapManager.build_key l') ∧
    (EventMapManager.build_key [⟨"event_1", [("id", .int 5)]⟩] ≠
      EventMapManager.build_key [⟨"event_1", [("id", .int 6)]⟩]) := by
  refine ⟨fun l => rfl, fun l l' hp hn => ?_, by decide⟩
  haveI ht : IsTotal Event (fun a b => strLe a.name b.name = true) :=
    ⟨fun a b => strLe_total a.name b.name⟩
  haveI htr : IsTrans Event (fun a b => strLe a.name b.name = true) :=
    ⟨fun _ _ _ => strLe_trans⟩
  have hs₁ := List.sorted_insertionSort
    (fun a b : Event => strLe a.name b.name = true) l
  have hs₂ := List.sorted_insertionSort
    (fun a b : Event => strLe a.name b.name = true) l'
  have hperm :
      (List.insertionSort (fun a b : Event => strLe a.name b.name = true)
        l).Perm
      (List.insertionSort (fun a b : Event => strLe a.name b.name = true)
        l') :=
    ((List.perm_insertionSort _ l).trans hp).trans
      (List.perm_insertionSort _ l').symm
  have hnod :
      ((List.insertionSort (fun a b : Event => strLe a.name b.name = true)
        l).map Event.name).Nodup :=
    (((List.perm_insertionSort _ l).map Event.name).nodup_iff).mpr hn
  have heq := sorted_perm_eq_of_nodup_key Event.name hperm hs₁ hs₂ hnod
  simp only [EventMapManager.build_key, heq]

/-- C1 witness: permutation invariance applied to the specification's
example watch lists (distinct names, both orders). -/
theorem build_key_characterization_witness :
    EventMapManager.build_key [⟨"event_1", []⟩, ⟨"event_2", []⟩] =
      EventMapManager.build_key [⟨"event_2", []⟩, ⟨"event_1", []⟩] :=
  build_key_characterization.2.1 _ _ (List.Perm.swap _ _ _) (by decide)

/-- C1 counterexample: for a watch list with two events of the same name
but different payloads, `build_key` is not invariant under permutation —
the stable sort keeps the payloads in input order, so the hashed string
(and the key) differs between the two orders. -/
theorem build_key_not_perm_invariant :
    (([⟨"a", [("x", .int 1)]⟩, ⟨"a", [("x", .int 2)]⟩] : List Event).Perm
      [⟨"a", [("x", .int 2)]⟩, ⟨"a", [("x", .int 1)]⟩]) ∧
    EventMapManager.build_key
        [⟨"a", [("x", .int 1)]⟩, ⟨"a", [("x", .int 2)]⟩] ≠
      EventMapManager.build_key
        [⟨"a", [("x", .int 2)]⟩, ⟨"a", [("x", .int 1)]⟩] :=
  ⟨List.Perm.swap _ _ _, by decide⟩

/-- A successful association-list lookup returns a stored entry. -/
theorem lookupA_mem {β : Type} : ∀ {t : List (String × β)} {k : String}
    {v : β}, lookupA t k = some v → (k, v) ∈ t
  | [], _, _, h => by simp [lookupA] at h
  | (k', v') :: rest, k, v, h => by
      by_cases hk : k' = k
      · subst hk
        simp [lookupA] at h
        simp [h]
      · have : lookupA rest k = some v := by simpa [lookupA, hk] using h
        exact List.mem_cons_of_mem _ (lookupA_mem this)

/-- The result of `__register_for_event` reports whether the handler was
absent from the event's list. -/
theorem register_for_event_snd (t : RegTable) (h : Handler) (e : String) :
    (EventDispatch.register_for_event t h e).2 =
      !(((lookupA t e).getD []).contains h) := by
  unfold EventDispatch.register_for_event
  cases hl : lookupA t e with
  | none => simp
  | some hs =>
      by_cases hm : h ∈ hs <;> simp [hm]

/-- `__register_for_event` leaves the table unchanged when it reports no
change. -/
theorem register_for_event_fst_of_false {t : RegTable} {h : Handler}
    {e : String} (hf : (EventDispatch.register_for_event t h e).2 = false) :
    (EventDispatch.register_for_event t h e).1 = t := by
  rw [register_for_event_snd] at hf
  simp at hf
  cases hl : lookupA t e with
  | none => rw [hl] at hf; simp at hf
  | some hs =>
      rw [hl] at hf
      simp at hf
      simp [EventDispatch.register_for_event, hl, hf]

/-- The or-flag of the register fold factors through its starting value. -/
theorem regFold_start (h : Handler) : ∀ (events : List String)
    (t : RegTable) (b : Bool),
    events.foldl
      (fun acc ev =>
        let r := EventDispatch.register_for_event acc.1 h ev
        (r.1, acc.2 || r.2)) (t, b) =
    ((regFold t h events).1, b || (regFold t h events).2)
  | [], t, b => by simp [regFold]
  | ev :: rest, t, b => by
      have step := EventDispatch.register_for_event t h ev
      simp only [List.foldl_cons, regFold]
      rw [regFold_start h rest _ (b || _), regFold_start h rest _ (false || _)]
      simp [Bool.or_assoc]

/-- The register fold reports a change exactly when some supplied name did
not yet have the handler registered. -/
theorem regFold_flag (h : Handler) : ∀ (events : List String) (t : RegTable),
    (regFold t h events).2 =
      events.any (fun e => !(((lookupA t e).getD []).contains h))
  | [], _ => rfl
  | ev :: rest, t => by
      simp only [regFold, List.foldl_cons, List.any_cons]
      rw [regFold_start h rest]
      simp only [Bool.false_or]
      rw [register_for_event_snd]
      by_cases hc : (((lookupA t ev).getD []).contains h)
      · have hfalse : (EventDispatch.register_for_event t h ev).2 = false := by
          rw [register_for_event_snd, hc]; rfl
        rw [register_for_event_fst_of_false hfalse]
        simp [hc, regFold_flag h rest t]
      · simp at hc
        simp [hc]

/-- `__validate_events` fails (with the `TypeError` from the bare class
raise) when some supplied name is falsy or the sentinel. -/
theorem validate_events_error {events : List String}
    (hinv : ∃ e ∈ events, e = "" ∨ e = ALL_EVENTS) :
    EventDispatch.validate_events events = .error .typeErrorMissingArg := by
  obtain ⟨e, hmem, he⟩ := hinv
  have hfe : e ∈ events.filter (fun e => e == "" || e == ALL_EVENTS) :=
    List.mem_filter.mpr ⟨hmem, by rcases he with h | h <;> simp [h]⟩
  unfold EventDispatch.validate_events
  rw [if_pos]
  exact List.length_pos.mpr (List.ne_nil_of_mem hfe)

/-- `__validate_events` succeeds when no supplied name is falsy or the
sentinel. -/
theorem validate_events_ok {events : List String}
    (hval : ∀ e ∈ events, ¬(e = "" ∨ e = ALL_EVENTS)) :
    EventDispatch.validate_events events = .ok () := by
  have hnil : events.filter (fun e => e == "" || e == ALL_EVENTS) = [] := by
    apply List.filter_eq_nil_iff.mpr
    intro a ha
    have := hval a ha
    simp at this ⊢
    exact this
  unfold EventDispatch.validate_events
  simp [hnil]

/-- C6: registering or unregistering with a supplied name that is empty or
equals the "all events" sentinel fails — but with the `TypeError` arising
from `raise InvalidEventError` (the class requires an `events` argument),
not with an `InvalidEvent` error; validation precedes every table
mutation, so the failed call leaves the registration table unchanged (the
embedding returns the error before any table is produced). -/
theorem register_invalid_name_type_error (t : RegTable) (h : Handler)
    (events : List String) (hinv : ∃ e ∈ events, e = "" ∨ e = ALL_EVENTS) :
    EventDispatch.register t h events = .error .typeErrorMissingArg ∧
    EventDispatch.unregister t h events = .error .typeErrorMissingArg ∧
    ∀ es : List String, PyErr.typeErrorMissingArg ≠ PyErr.invalidEvent es := by
  have hv := validate_events_error hinv
  refine ⟨?_, ?_, fun es => by simp⟩
  · unfold EventDispatch.register
    rw [hv]
  · unfold EventDispatch.unregister
    rw [hv]

/-- C6 witness: concrete invalid registrations (the sentinel, an empty
name) produce the `TypeError`. -/
theorem register_invalid_name_type_error_witness :
    EventDispatch.register [("a", [1])] 7 [ALL_EVENTS] =
      .error .typeErrorMissingArg ∧
    EventDispatch.unregister [("a", [1])] 7 [""] =
      .error .typeErrorMissingArg :=
  ⟨(register_invalid_name_type_error [("a", [1])] 7 [ALL_EVENTS]
      ⟨ALL_EVENTS, by simp, Or.inr rfl⟩).1,
   (register_invalid_name_type_error [("a", [1])] 7 [""]
      ⟨"", by simp, Or.inl rfl⟩).2.1⟩

/-- `post_event` with a non-empty name always returns a result. -/
theorem post_event_ok (t : RegTable) (name : String) (p : Payload)
    (ex : Option Handler) (hn : (name == "") = false) :
    ∃ pr, EventDispatch.post_event t name p ex = .ok pr := by
  unfold EventDispatch.post_event
  rw [if_neg (by simp [hn])]
  cases lookupA t name <;> exact ⟨_, rfl⟩

/-- C10: posting an event mutates the registration table.  `post_event`
fetches the posted name's handler list by reference and appends the
wildcard handlers to it, so after posting `"a"` on a table where handler 1
is registered for `"a"` and handler 2 for the sentinel, the stored list
for `"a"` has become `[1, 2]` — the table differs from what it was before
the call, although only register/unregister/clear are supposed to change
it. -/
theorem post_event_mutates_registration_table :
    EventDispatch.post_event [("a", [1]), (ALL_EVENTS, [2])] "a" [] none =
      .ok ⟨[("a", [1, 2]), (ALL_EVENTS, [2])], [1, 2]⟩ ∧
    ([("a", [1, 2]), (ALL_EVENTS, [2])] : RegTable) ≠
      [("a", [1]), (ALL_EVENTS, [2])] :=
  ⟨rfl, by decide⟩

/-- The result of `__unregister_from_event` reports whether the handler
was present in the event's list. -/
theorem unregister_from_event_snd (t : RegTable) (h : Handler) (e : String) :
    (EventDispatch.unregister_from_event t h e).2 =
      ((lookupA t e).getD []).contains h := by
  unfold EventDispatch.unregister_from_event
  cases hl : lookupA t e with
  | none => simp
  | some hs =>
      by_cases hm : h ∈ hs <;> simp [hm]

/-- `__unregister_from_event` leaves the table unchanged when it reports
no change. -/
theorem unregister_from_event_fst_of_false {t : RegTable} {h : Handler}
    {e : String}
    (hf : (EventDispatch.unregister_from_event t h e).2 = false) :
    (EventDispatch.unregister_from_event t h e).1 = t := by
  rw [unregister_from_event_snd] at hf
  simp at hf
  cases hl : lookupA t e with
  | none => simp [EventDispatch.unregister_from_event, hl]
  | some hs =>
      rw [hl] at hf
      simp at hf
      simp [EventDispatch.unregister_from_event, hl, hf]

/-- The or-flag of the unregister fold factors through its starting
value. -/
theorem unregFold_start (h : Handler) : ∀ (events : List String)
    (t : RegTable) (b : Bool),
    events.foldl
      (fun acc ev =>
        let r := EventDispatch.unregister_from_event acc.1 h ev
        (r.1, acc.2 || r.2)) (t, b) =
    ((unregFold t h events).1, b || (unregFold t h events).2)
  | [], t, b => by simp [unregFold]
  | ev :: rest, t, b => by
      simp only [List.foldl_cons, unregFold]
      rw [unregFold_start h rest _ (b || _), unregFold_start h rest _ (false || _)]
      simp [Bool.or_assoc]

/-- The unregister fold reports a change exactly when the handler was
registered for some supplied name. -/
theorem unregFold_flag (h : Handler) : ∀ (events : List String)
    (t : RegTable),
    (unregFold t h events).2 =
      events.any (fun e => ((lookupA t e).getD []).contains h)
  | [], _ => rfl
  | ev :: rest, t => by
      simp only [unregFold, List.foldl_cons, List.any_cons]
      rw [unregFold_start h rest]
      simp only [Bool.false_or]
      rw [unregister_from_event_snd]
      by_cases hc : (((lookupA t ev).getD []).contains h)
      · simp at hc
        simp [hc]
      · have hfalse :
            (EventDispatch.unregister_from_event t h ev).2 = false := by
          rw [unregister_from_event_snd]
          simp at hc
          simp [hc]
        rw [unregister_from_event_fst_of_false hfalse]
        simp [hc, unregFold_flag h rest t]

/-- C7 (amended): when at least one supplied name is a net change,
`register` posts one `handler_registered` administrative event whose
payload carries the FULL list of names supplied to the call (with the
sentinel-only list rendered as an empty list) together with an identifier
for the callback — not the net list of names actually added; when no
supplied name is a net change, no administrative event is posted;
symmetrically, `unregister` posts one `handler_unregistered` event with
the full supplied list exactly when the handler was registered for at
least one supplied name, and nothing otherwise. -/
theorem register_admin_event_payload (t : RegTable) (h : Handler)
    (events : List String)
    (hval : ∀ e ∈ events, ¬(e = "" ∨ e = ALL_EVENTS)) :
    (∃ r, EventDispatch.register t h events = .ok r ∧
      (((if events = [] then [ALL_EVENTS] else events).any
          (fun e => !(((lookupA t e).getD []).contains h))) = false →
        r.posts = []) ∧
      (((if events = [] then [ALL_EVENTS] else events).any
          (fun e => !(((lookupA t e).getD []).contains h))) = true →
        r.posts = [(handler_registered_name,
          .dict (adminPayload h
            (if events = [] then [ALL_EVENTS] else events)))])) ∧
    (∃ r, EventDispatch.unregister t h events = .ok r ∧
      (((if events = [] then [ALL_EVENTS] else events).any
          (fun e => ((lookupA t e).getD []).contains h)) = false →
        r.posts = []) ∧
      (((if events = [] then [ALL_EVENTS] else events).any
          (fun e => ((lookupA t e).getD []).contains h)) = true →
        r.posts = [(handler_unregistered_name,
          .dict (adminPayload h
            (if events = [] then [ALL_EVENTS] else events)))])) := by
  have hv := validate_events_ok hval
  constructor
  · unfold EventDispatch.register
    rw [hv]
    simp only []
    generalize hE : (if events = [] then [ALL_EVENTS] else events) = events'
    rw [regFold_flag]
    by_cases hflag :
        events'.any (fun e => !(((lookupA t e).getD []).contains h)) = true
    · rw [if_pos hflag]
      obtain ⟨pr, hpr⟩ :=
        post_event_ok (regFold t h events').1 handler_registered_name
          (adminPayload h events') none rfl
      rw [hpr]
      exact ⟨_, rfl, fun hc => by
        rw [hc] at hflag
        exact absurd hflag Bool.false_ne_true, fun _ => rfl⟩
    · rw [if_neg hflag]
      refine ⟨_, rfl, fun _ => rfl, fun hc => absurd hc hflag⟩
  · unfold EventDispatch.unregister
    rw [hv]
    simp only []
    generalize hE : (if events = [] then [ALL_EVENTS] else events) = events'
    rw [unregFold_flag]
    by_cases hflag :
        events'.any (fun e => (((lookupA t e).getD []).contains h)) = true
    · rw [if_pos hflag]
      obtain ⟨pr, hpr⟩ :=
        post_event_ok (unregFold t h events').1 handler_unregistered_name
          (adminPayload h events') none rfl
      rw [hpr]
      exact ⟨_, rfl, fun hc => by
        rw [hc] at hflag
        exact absurd hflag Bool.false_ne_true, fun _ => rfl⟩
    · rw [if_neg hflag]
      refine ⟨_, rfl, fun _ => rfl, fun hc => absurd hc hflag⟩

/-- C7 witness: registering a fresh handler for a fresh name posts
`handler_registered` with that name and the handler identifier;
unregistering a handler that is registered for the supplied name posts
`handler_unregistered` the same way. -/
theorem register_admin_event_payload_witness :
    (∃ r, EventDispatch.register [] 3 ["x"] = .ok r ∧
      r.posts =
        [(handler_registered_name, .dict (adminPayload 3 ["x"]))]) ∧
    (∃ r, EventDispatch.unregister [("x", [3])] 3 ["x"] = .ok r ∧
      r.posts =
        [(handler_unregistered_name, .dict (adminPayload 3 ["x"]))]) := by
  constructor
  · obtain ⟨⟨r, h1, _, h3⟩, _⟩ :=
      register_admin_event_payload [] 3 ["x"] (by decide)
    exact ⟨r, h1, h3 (by decide)⟩
  · obtain ⟨_, ⟨r, h1, _, h3⟩⟩ :=
      register_admin_event_payload [("x", [3])] 3 ["x"] (by decide)
    exact ⟨r, h1, h3 (by decide)⟩

/-- C7 counterexample: with handler 7 already registered for `"a"`,
registering it for `["a", "b"]` is a net change only for `"b"`, yet the
posted `handler_registered` payload lists both supplied names `["a", "b"]`
— not the net list `["b"]` the claim describes. -/
theorem register_admin_event_not_net_list :
    EventDispatch.register [("a", [7])] 7 ["a", "b"] =
      .ok ⟨[("a", [7]), ("b", [7])],
           [(handler_registered_name,
             .dict [("events", .list [.str "a", .str "b"]),
                    ("handler", .str (reprHandler 7))])]⟩ ∧
    ["a", "b"].filter
        (fun e => !(((lookupA [("a", [7])] e).getD []).contains 7)) =
      ["b"] ∧
    (["a", "b"] : List String) ≠ ["b"] :=
  ⟨rfl, rfl, by decide⟩

/-- The append-if-absent fold of `post_event` equals the starting list
followed by the filtered wildcard handlers, provided the wildcard list has
no duplicates. -/
theorem foldl_append_unique (c : Handler → Bool) :
    ∀ (ws init : List Handler), ws.Nodup →
      ws.foldl
        (fun acc h => if !(acc.contains h) && c h then acc ++ [h] else acc)
        init =
      init ++ ws.filter (fun h => !(init.contains h) && c h)
  | [], init, _ => by simp
  | w :: ws, init, hnd => by
      have hw : w ∉ ws := (List.nodup_cons.mp hnd).1
      have hnd' : ws.Nodup := (List.nodup_cons.mp hnd).2
      simp only [List.foldl_cons, List.filter_cons]
      by_cases hc : (!(init.contains w) && c w) = true
      · rw [if_pos hc, if_pos hc, foldl_append_unique c ws (init ++ [w]) hnd']
        have hfe : ws.filter (fun h => !((init ++ [w]).contains h) && c h) =
            ws.filter (fun h => !(init.contains h) && c h) := by
          apply List.filter_congr
          intro h hmem
          have hne : h ≠ w := fun heq => hw (heq ▸ hmem)
          simp [hne]
        rw [hfe, List.append_assoc]
        rfl
      · rw [if_neg hc, if_neg hc, foldl_append_unique c ws init hnd']

/-- C5 (amended): for a well-formed table (no duplicate callbacks within a
registration list), posting a non-empty name delivers exactly once to each
callback in: the callbacks registered for the name, plus the callbacks
registered for the sentinel that are not already in the name's list and
differ from `exclude_callback`.  The exclusion is applied only on the
sentinel side — a callback registered for the posted name itself receives
the event even when it is the `exclude_callback`. -/
theorem post_event_delivery_set (t : RegTable) (name : String) (p : Payload)
    (ex : Option Handler)
    (hname : (name == "") = false)
    (hwf : ∀ x ∈ t, (Prod.snd x).Nodup) :
    ∃ r, EventDispatch.post_event t name p ex = .ok r ∧
      r.delivered.Nodup ∧
      (∀ h, h ∈ r.delivered ↔
        (h ∈ (lookupA t name).getD [] ∨
         (h ∈ (lookupA t ALL_EVENTS).getD [] ∧
          h ∉ (lookupA t name).getD [] ∧ ¬ ex = some h))) := by
  have hwild : ((lookupA t ALL_EVENTS).getD []).Nodup := by
    cases hl : lookupA t ALL_EVENTS with
    | none => simp
    | some ws => simpa using hwf _ (lookupA_mem hl)
  unfold EventDispatch.post_event
  rw [if_neg (by simp [hname])]
  dsimp only
  cases hl : lookupA t name with
  | some hs =>
      have hspec : hs.Nodup := by simpa using hwf _ (lookupA_mem hl)
      dsimp only
      rw [foldl_append_unique (fun h => !(ex == some h))
        ((lookupA t ALL_EVENTS).getD []) hs hwild]
      refine ⟨_, rfl, ?_, ?_⟩
      · refine List.Nodup.append hspec (hwild.filter _) ?_
        intro a ha1 ha2
        have hcond := (List.mem_filter.mp ha2).2
        simp at hcond
        exact hcond.1 ha1
      · intro h
        simp [List.mem_filter]
  | none =>
      dsimp only
      rw [foldl_append_unique (fun h => !(ex == some h))
        ((lookupA t ALL_EVENTS).getD []) [] hwild]
      refine ⟨_, rfl, ?_, ?_⟩
      · simpa using (hwild.filter _)
      · intro h
        simp [List.mem_filter]

/-- C5 witness: on a concrete table where handler 1 is registered both for
`"a"` and the sentinel and handler 2 only for the sentinel, posting `"a"`
excluding handler 2 delivers per the characterization. -/
theorem post_event_delivery_set_witness :
    ∃ r, EventDispatch.post_event [("a", [1]), (ALL_EVENTS, [2, 1])] "a" []
        (some 2) = .ok r ∧
      r.delivered.Nodup ∧
      (∀ h, h ∈ r.delivered ↔
        (h ∈ (lookupA [("a", [1]), (ALL_EVENTS, [2, 1])] "a").getD [] ∨
         (h ∈ (lookupA [("a", [1]), (ALL_EVENTS, [2, 1])] ALL_EVENTS).getD
            [] ∧
          h ∉ (lookupA [("a", [1]), (ALL_EVENTS, [2, 1])] "a").getD [] ∧
          ¬ (some 2 : Option Handler) = some h))) :=
  post_event_delivery_set [("a", [1]), (ALL_EVENTS, [2, 1])] "a" [] (some 2)
    rfl (by decide)

/-- C5 counterexample: handler 5 is registered for `"a"` and given as the
`exclude_callback`, yet posting `"a"` still delivers to it — the
exclusion is only consulted while appending sentinel-registered handlers,
contradicting the claim that the excluded callback is removed from the
combined set regardless of where it was registered. -/
theorem post_event_exclude_ignored_for_specific :
    EventDispatch.post_event [("a", [5])] "a" [] (some 5) =
      .ok ⟨[("a", [5])], [5]⟩ ∧ (5 : Handler) ∈ ([5] : List Handler) :=
  ⟨rfl, by decide⟩

/-- Assignment at one key does not affect lookup at another. -/
theorem lookupA_setA_ne {β : Type} (p : List (String × β)) (k k' : String)
    (v : β) (h : k' ≠ k) : lookupA (setA p k v) k' = lookupA p k' := by
  induction p with
  | nil =>
      simp only [setA, lookupA]
      rw [if_neg (fun hk => h hk.symm)]
  | cons kv rest ih =>
      obtain ⟨k₀, v₀⟩ := kv
      by_cases hk : k₀ = k
      · subst hk
        have : k₀ ≠ k' := fun hh => h hh.symm
        simp [setA, lookupA, this]
      · by_cases hk' : k₀ = k'
        · subst hk'
          simp [setA, lookupA, hk]
        · simp [setA, lookupA, hk, hk', ih]

/-- Deletion yields a sublist (the watch set only ever shrinks). -/
theorem removeA_sublist {β : Type} (t : List (String × β)) (k : String) :
    (removeA t k).Sublist t := by
  induction t with
  | nil => simp [removeA]
  | cons kv rest ih =>
      obtain ⟨k₀, v₀⟩ := kv
      by_cases hk : k₀ = k
      · simp only [removeA, if_pos hk]
        exact (List.Sublist.refl rest).cons _
      · simp only [removeA, if_neg hk]
        exact ih.cons₂ _

/-- Pointwise-equal predicates give equal `List.all` results. -/
theorem all_congr_mem {α : Type} (l : List α) (f g : α → Bool)
    (h : ∀ a ∈ l, f a = g a) : l.all f = l.all g := by
  induction l with
  | nil => rfl
  | cons a rest ih => simp_all

/-- C2 (amended): for an Event Map, an incoming event whose name is not
watched leaves the state unchanged and produces no actions; for a watched
name, the name is removed from the watch set if and only if every key of
the recorded expected payload subset compares equal (Python `==`) against
the incoming payload's value for that key, where a missing key reads as
`None` — so an expected value of `None`/null is matched by an absent key,
and any other mismatch leaves the watch set unchanged; keys of the
incoming payload beyond the expected subset never influence the match. -/
theorem on_event_match_semantics (s : EventMapState) (ev : Event) :
    (lookupA s.events_to_watch ev.name = none →
      EventMap.on_event s ev = (s, [])) ∧
    (∀ expected, lookupA s.events_to_watch ev.name = some expected →
      (EventMap.on_event s ev).1.events_to_watch =
        (if payloadMatches expected ev.payload then
          removeA s.events_to_watch ev.name
        else s.events_to_watch)) ∧
    (∀ expected, payloadMatches expected ev.payload = true ↔
      ∀ kv ∈ expected, pyEq (pyGet ev.payload kv.1) kv.2 = true) ∧
    (∀ expected (k : String) (v : Value), (∀ kv ∈ expected, kv.1 ≠ k) →
      payloadMatches expected (setA ev.payload k v) =
        payloadMatches expected ev.payload) := by
  refine ⟨?_, ?_, ?_, ?_⟩
  · intro h
    simp [EventMap.on_event, h]
  · intro expected h
    simp only [EventMap.on_event, h]
    by_cases hm : payloadMatches expected ev.payload
    · by_cases he : (removeA s.events_to_watch ev.name).isEmpty <;>
        simp [hm, he]
    · simp [hm]
  · intro expected
    simp [payloadMatches, List.all_eq_true]
  · intro expected k v hk
    simp only [payloadMatches]
    apply all_congr_mem
    intro kv hkv
    have hne : kv.1 ≠ k := hk kv hkv
    simp [pyGet, lookupA_setA_ne ev.payload k kv.1 v hne]

/-- C2 witness: a watched event arriving with a mismatching payload value
(expected id 5, incoming id 6) leaves the watch set unchanged. -/
theorem on_event_match_semantics_witness :
    (EventMap.on_event
      { events_to_map := [⟨"a", [("id", .int 5)]⟩, ⟨"b", []⟩]
        event_to_post := ⟨"c", []⟩
        events_to_watch := [("a", [("id", .int 5)]), ("b", [])]
        mapped_events := ["a", "b"]
        key := "K" }
      ⟨"a", [("id", .int 6)]⟩).1.events_to_watch =
      [("a", [("id", .int 5)]), ("b", [])] :=
  (((on_event_match_semantics
      { events_to_map := [⟨"a", [("id", .int 5)]⟩, ⟨"b", []⟩]
        event_to_post := ⟨"c", []⟩
        events_to_watch := [("a", [("id", .int 5)]), ("b", [])]
        mapped_events := ["a", "b"]
        key := "K" }
      ⟨"a", [("id", .int 6)]⟩).2.1 [("id", .int 5)] rfl).trans rfl)

/-- C2 counterexample: the claim says a missing expected key always
prevents the match, but when the expected value is `None`/null the
source's `dict.get` read makes an absent key compare equal — here the
watched name `"a"` expects key `"k"` with value null, the incoming payload
does not contain `"k"` at all, and `on_event` still removes `"a"` from the
watch set. -/
theorem on_event_missing_key_matches_null :
    (EventMap.on_event
      { events_to_map := [⟨"a", [("k", .null)]⟩]
        event_to_post := ⟨"c", []⟩
        events_to_watch := [("a", [("k", .null)])]
        mapped_events := ["a"]
        key := "K" }
      ⟨"a", []⟩).1.events_to_watch = [] ∧
    lookupA ((⟨"a", []⟩ : Event)).payload "k" = none :=
  ⟨rfl, rfl⟩

/-- C3: when a matching event empties the watch set, `on_event` emits
exactly — and in this order — the construction-time event-to-post (name
and payload exactly as stored, not merged with the incoming payload), the
unregistration of the map's handler from its mapped names, and a
`mapping_triggered` event carrying the map's key; when the watch set does
not empty, nothing is posted; the empty watch set is terminal (`on_event`
changes nothing and posts nothing); the watch set never grows; and the
event-to-post, mapped names and key never change. -/
theorem on_event_trigger_and_terminal (s : EventMapState) (ev : Event) :
    (∀ expected, lookupA s.events_to_watch ev.name = some expected →
      payloadMatches expected ev.payload = true →
      (removeA s.events_to_watch ev.name).isEmpty = true →
      EventMap.on_event s ev =
        ({ s with events_to_watch := removeA s.events_to_watch ev.name },
         [.post s.event_to_post.name s.event_to_post.payload,
          .unregister s.mapped_events,
          .post mapping_triggered_name [("key", .str s.key)]])) ∧
    (∀ expected, lookupA s.events_to_watch ev.name = some expected →
      payloadMatches expected ev.payload = true →
      (removeA s.events_to_watch ev.name).isEmpty = false →
      (EventMap.on_event s ev).2 = []) ∧
    (s.events_to_watch = [] → EventMap.on_event s ev = (s, [])) ∧
    (EventMap.on_event s ev).1.events_to_watch.Sublist s.events_to_watch ∧
    (EventMap.on_event s ev).1.event_to_post = s.event_to_post ∧
    (EventMap.on_event s ev).1.mapped_events = s.mapped_events ∧
    (EventMap.on_event s ev).1.key = s.key := by
  refine ⟨?_, ?_, ?_, ?_, ?_, ?_, ?_⟩
  · intro expected h hm he
    simp [EventMap.on_event, h, hm, he, EventMap.stop]
  · intro expected h hm he
    simp [EventMap.on_event, h, hm, he]
  · intro h
    simp [EventMap.on_event, h, lookupA]
  all_goals
    simp only [EventMap.on_event]
    cases h : lookupA s.events_to_watch ev.name with
    | none => simp
    | some expected =>
        by_cases hm : payloadMatches expected ev.payload
        · by_cases he : (removeA s.events_to_watch ev.name).isEmpty <;>
            · simp [hm, he]
              try exact removeA_sublist s.events_to_watch ev.name
        · simp [hm]

/-- C3 witness: with one watched name left, a matching event triggers the
composite post (with the construction-time payload, ignoring the incoming
extra key), the unregistration, and `mapping_triggered` with the key. -/
theorem on_event_trigger_and_terminal_witness :
    EventMap.on_event
      { events_to_map := [⟨"b", []⟩]
        event_to_post := ⟨"c", [("z", .int 1)]⟩
        events_to_watch := [("b", [])]
        mapped_events := ["b"]
        key := "K2" }
      ⟨"b", [("extra", .str "x")]⟩ =
      ({ events_to_map := [⟨"b", []⟩]
         event_to_post := ⟨"c", [("z", .int 1)]⟩
         events_to_watch := []
         mapped_events := ["b"]
         key := "K2" },
       [.post "c" [("z", .int 1)],
        .unregister ["b"],
        .post mapping_triggered_name [("key", .str "K2")]]) :=
  (on_event_trigger_and_terminal
      { events_to_map := [⟨"b", []⟩]
        event_to_post := ⟨"c", [("z", .int 1)]⟩
        events_to_watch := [("b", [])]
        mapped_events := ["b"]
        key := "K2" }
      ⟨"b", [("extra", .str "x")]⟩).1 [] rfl rfl rfl

/-- Extracting a Python list of real events succeeds. -/
theorem allSome_map_some : ∀ l : List Event, allSome (l.map some) = some l
  | [] => rfl
  | e :: rest => by simp [allSome, allSome_map_some rest]

/-- C4: when the computed key is already stored, `map_events` with
`ignore_if_exists` returns the existing key with the table unchanged and
nothing posted; without `ignore_if_exists` it raises `DuplicateMapping`
carrying the sanitized mapping payload, again with the table unchanged and
no `mapping_created` posted; when the key is absent, the constructed map
is stored under the key, `mapping_created` is posted, and the key is
returned. -/
theorem map_events_duplicate_semantics (tbl : MapTable)
    (events : List Event) (post : Event) (ignore : Bool)
    (hne : events ≠ []) :
    ((lookupA tbl (EventMapManager.build_key events)).isSome = true →
      (ignore = true →
        EventMapManager.map_events tbl (events.map some) (some post) ignore =
          ⟨.ok (EventMapManager.build_key events), tbl, []⟩) ∧
      (ignore = false →
        EventMapManager.map_events tbl (events.map some) (some post) ignore =
          ⟨.error (.duplicateMapping
             (build_event_mapping_payload (events.map some) (some post))),
           tbl, []⟩)) ∧
    ((lookupA tbl (EventMapManager.build_key events)).isSome = false →
      ∃ m, EventMap.init (events.map some) (some post)
            (EventMapManager.build_key events) = .ok m ∧
        EventMapManager.map_events tbl (events.map some) (some post) ignore =
          ⟨.ok (EventMapManager.build_key events),
           setA tbl (EventMapManager.build_key events) m,
           [(mapping_created_name,
             build_event_mapping_payload (events.map some) (some post))]⟩) := by
  have h1 : ((events.map some).isEmpty || (some post).isNone) = false := by
    cases events with
    | nil => exact absurd rfl hne
    | cons a rest => rfl
  unfold EventMapManager.map_events
  rw [if_neg (by rw [h1]; exact Bool.false_ne_true), allSome_map_some]
  dsimp only
  constructor
  · intro hk
    rw [if_pos hk]
    constructor
    · intro hi
      rw [if_pos hi]
    · intro hi
      rw [if_neg (by simp [hi])]
  · intro hk
    rw [if_neg (by simp [hk])]
    have hguard : ((events.map some).isEmpty || (some post).isNone ||
        (events.map some).all (fun e => e.isNone)) = false := by
      cases events with
      | nil => exact absurd rfl hne
      | cons a rest => simp
    have hinit : EventMap.init (events.map some) (some post)
        (EventMapManager.build_key events) = .ok
          { events_to_map := events
            event_to_post := post
            events_to_watch :=
              events.foldl (fun d e => setA d e.name e.payload) []
            mapped_events := events.map Event.name
            key := EventMapManager.build_key events } := by
      unfold EventMap.init
      rw [if_neg (by rw [hguard]; exact Bool.false_ne_true), allSome_map_some]
    refine ⟨_, hinit, ?_⟩
    rw [hinit]

/-- C4 witness: with the key of `[("event_1", empty payload)]` already
stored, a second `map_events` with `ignore_if_exists` returns the same key
and changes nothing. -/
theorem map_events_duplicate_semantics_witness :
    EventMapManager.map_events
      [(EventMapManager.build_key [⟨"event_1", []⟩],
        ⟨[], ⟨"x", []⟩, [], [], ""⟩)]
      [some ⟨"event_1", []⟩] (some ⟨"event_3", []⟩) true =
      ⟨.ok (EventMapManager.build_key [⟨"event_1", []⟩]),
       [(EventMapManager.build_key [⟨"event_1", []⟩],
         ⟨[], ⟨"x", []⟩, [], [], ""⟩)], []⟩ :=
  ((map_events_duplicate_semantics
      [(EventMapManager.build_key [⟨"event_1", []⟩],
        ⟨[], ⟨"x", []⟩, [], [], ""⟩)]
      [⟨"event_1", []⟩] ⟨"event_3", []⟩ true (by simp)).1 rfl).1 rfl

/-- C8 (amended): direct `EventMap` construction rejects an empty watch
list, a missing composite event, and an all-falsy watch list with
`InvalidMappingEvents`; `map_events` rejects an empty watch list and a
missing composite event the same way (table unchanged, nothing posted),
but for a NON-EMPTY all-falsy watch list it fails earlier, inside
`build_key`, with an `AttributeError` — not `InvalidMappingEvents` — and
still stores no map and posts nothing. -/
theorem mapping_validation (tbl : MapTable) (ignore : Bool) (key : String)
    (events : List (Option Event)) (post : Option Event) :
    ((events.isEmpty || post.isNone ||
        events.all (fun e => e.isNone)) = true →
      EventMap.init events post key =
        .error (.invalidMappingEvents
          (build_event_mapping_payload events post))) ∧
    ((events.isEmpty || post.isNone) = true →
      EventMapManager.map_events tbl events post ignore =
        ⟨.error (.invalidMappingEvents
           (build_event_mapping_payload events post)), tbl, []⟩) ∧
    (events ≠ [] → events.all (fun e => e.isNone) = true →
      post.isNone = false →
      EventMapManager.map_events tbl events post ignore =
        ⟨.error .attributeError, tbl, []⟩) := by
  refine ⟨?_, ?_, ?_⟩
  · intro h
    unfold EventMap.init
    rw [if_pos h]
  · intro h
    unfold EventMapManager.map_events
    rw [if_pos h]
  · intro hne hall hpost
    have h2 : (events.isEmpty || post.isNone) = false := by
      cases events with
      | nil => exact absurd rfl hne
      | cons a rest => simp [hpost]
    have h3 : allSome events = none := by
      cases events with
      | nil => exact absurd rfl hne
      | cons a rest =>
          have ha : a.isNone = true := by
            have := List.all_eq_true.mp hall a (by simp)
            exact this
          cases a with
          | none => rfl
          | some e => simp at ha
    unfold EventMapManager.map_events
    rw [if_neg (by rw [h2]; exact Bool.false_ne_true), h3]

/-- C8 witness: the constructor rejects `[None, None]` with
`InvalidMappingEvents`; `map_events` rejects an empty watch list the same
way. -/
theorem mapping_validation_witness :
    EventMap.init [none, none] (some ⟨"event_3", []⟩) "" =
      .error (.invalidMappingEvents
        (build_event_mapping_payload [none, none] (some ⟨"event_3", []⟩))) ∧
    EventMapManager.map_events [] [] (some ⟨"event_3", []⟩) false =
      ⟨.error (.invalidMappingEvents
         (build_event_mapping_payload [] (some ⟨"event_3", []⟩))), [], []⟩ :=
  ⟨(mapping_validation [] false "" [none, none] (some ⟨"event_3", []⟩)).1 rfl,
   (mapping_validation [] false "" [] (some ⟨"event_3", []⟩)).2.1 rfl⟩

/-- C8 counterexample: creating a map through `map_events` with the
non-empty all-falsy watch list `[None]` raises an `AttributeError` from
`build_key` (`None` has no `dict`), not the `InvalidMappingEvents` the
claim requires. -/
theorem map_events_all_none_attribute_error :
    EventMapManager.map_events [] [none] (some ⟨"event_3", []⟩) false =
      ⟨.error .attributeError, [], []⟩ ∧
    isInvalidMappingEvents .attributeError = false :=
  ⟨rfl, rfl⟩

/-- C9: `remove_by_key` on a key absent from the manager's table —
including a `None` key (which never matches the string keys) and the empty
string — raises `MappingNotFound` and leaves the table unchanged with
nothing posted; on a present key it removes exactly that entry (the rest
of the table is kept, in order) and posts `mapping_removed` carrying the
sanitized mapping payload of the removed map. -/
theorem remove_by_key_semantics (tbl : MapTable) (key : Option String) :
    ((∀ k, key = some k → lookupA tbl k = none) →
      EventMapManager.remove_event_map_by_key tbl key =
        ⟨.error (.mappingNotFound key), tbl, []⟩) ∧
    (∀ k m, key = some k → lookupA tbl k = some m →
      EventMapManager.remove_event_map_by_key tbl key =
        ⟨.ok (), removeA tbl k,
         [(mapping_removed_name,
           build_event_mapping_payload (m.events_to_map.map some)
             (some m.event_to_post))]⟩) ∧
    (∀ k, (removeA tbl k).Sublist tbl) := by
  refine ⟨?_, ?_, fun k => removeA_sublist tbl k⟩
  · intro habs
    cases key with
    | none => rfl
    | some k =>
        have := habs k rfl
        unfold EventMapManager.remove_event_map_by_key
        dsimp only
        rw [this]
  · intro k m hk hm
    cases hk
    unfold EventMapManager.remove_event_map_by_key
    dsimp only
    rw [hm]

/-- C9 witness: on the concrete table `[("K", m)]`, removal fails for a
`None` key and for the absent key `""` and succeeds for `"K"`. -/
theorem remove_by_key_semantics_witness :
    EventMapManager.remove_event_map_by_key
        [("K", ⟨[⟨"a", []⟩], ⟨"c", []⟩, [("a", [])], ["a"], "K"⟩)] none =
      ⟨.error (.mappingNotFound none),
       [("K", ⟨[⟨"a", []⟩], ⟨"c", []⟩, [("a", [])], ["a"], "K"⟩)], []⟩ ∧
    EventMapManager.remove_event_map_by_key
        [("K", ⟨[⟨"a", []⟩], ⟨"c", []⟩, [("a", [])], ["a"], "K"⟩)]
        (some "") =
      ⟨.error (.mappingNotFound (some "")),
       [("K", ⟨[⟨"a", []⟩], ⟨"c", []⟩, [("a", [])], ["a"], "K"⟩)], []⟩ ∧
    EventMapManager.remove_event_map_by_key
        [("K", ⟨[⟨"a", []⟩], ⟨"c", []⟩, [("a", [])], ["a"], "K"⟩)]
        (some "K") =
      ⟨.ok (), [],
       [(mapping_removed_name,
         build_event_mapping_payload [some ⟨"a", []⟩] (some ⟨"c", []⟩))]⟩ :=
  ⟨(remove_by_key_semantics
      [("K", ⟨[⟨"a", []⟩], ⟨"c", []⟩, [("a", [])], ["a"], "K"⟩)] none).1
      (fun k hk => nomatch hk),
   (remove_by_key_semantics
      [("K", ⟨[⟨"a", []⟩], ⟨"c", []⟩, [("a", [])], ["a"], "K"⟩)]
      (some "")).1 (fun k hk => by cases hk; rfl),
   (remove_by_key_semantics
      [("K", ⟨[⟨"a", []⟩], ⟨"c", []⟩, [("a", [])], ["a"], "K"⟩)]
      (some "K")).2.1 "K" _ rfl rfl⟩
